import Mathlib

/-!
Verification of the pervie disk-flashing tool against its specification.

The development shallowly embeds the Rust sources:
* `src/core/mod.rs`      — `Device`, `AppState`, `Iso`, `FileSystemType`, `DiskError`;
* `src/core/flasher.rs`  — the write pipeline: the writer thread's aligned
  buffering, the producer loop with throttled progress emission and the
  send-failure branch, and the bounded hand-off channel;
* `src/app.rs`           — the operation controller: `unmount_selected`,
  `format_selected`, `flash_selected_iso`, `start_flashing`, and the
  background task spawned by `start_flashing`;
* `src/platform/linux.rs` and `src/platform/macos.rs` — `parse_size`,
  `extract_parent_disk`, and the pre-invocation part of `format`.

Pure functions become Lean functions; the spawned background work is made
explicit as returned action lists; the writer/producer threads are embedded
as explicit state passing with the cross-thread events (send failure, the
writer's join result) given as parameters. Machine integers are `Nat`
(all quantities stay far below 2^64 wherever a theorem asserts equality
with the Rust value, and the hypotheses say so when it matters); `f64`
quantities that only feed the UI (`speed_mbps`, `percent`) are embedded as
exact rationals, and no theorem below depends on rounding behaviour.
-/

/-! ## Data model (src/core/mod.rs) -/

/-- `FlashProgress` from src/core/flasher.rs. `speed_mbps` and `percent` are
`f64` in the source; they are embedded as exact rationals. -/
structure FlashProgress where
  bytes_written : Nat
  total_bytes : Nat
  speed_mbps : ℚ
  percent : ℚ
deriving DecidableEq

/-- `Device` from src/core/mod.rs. -/
structure Device where
  path : String
  name : String
  size_bytes : Nat
  filesystem : String
  label : String
  mount_point : Option String
  is_protected : Bool
  is_removable : Bool
deriving DecidableEq

/-- `AppState` from src/core/mod.rs. -/
inductive AppState where
  | Idle
  | DeviceSelected (i : Nat)
  | FormattingMenu
  | ConfirmDestructive (path : String)
  | ConfirmFlash (path : String)
  | IsoSelection
  | Flashing (p : FlashProgress)
  | InProgress (msg : String)
  | Error (msg : String)
  | Success (msg : String)
deriving DecidableEq

/-- Whether a state is the `Error` state (used to state that a run never
lands in `Error`). -/
def AppState.isErrorState : AppState → Bool
  | .Error _ => true
  | _ => false

/-- `Iso` from src/core/mod.rs. -/
structure Iso where
  name : String
  version : String
  arch : String
  url : String
  variety : String
deriving DecidableEq

/-- `FileSystemType` from src/core/mod.rs. -/
inductive FileSystemType where
  | Fat32
  | ExFat
  | Ntfs
  | Ext4
  | Apfs
deriving DecidableEq

/-- `FileSystemType::as_diskutil_format` from src/core/mod.rs. The `Ext4`
arm carries the source comment "Not directly supported, fallback". -/
def FileSystemType.as_diskutil_format : FileSystemType → String
  | .Fat32 => "FAT32"
  | .ExFat => "ExFAT"
  | .Ntfs => "NTFS"
  | .Ext4 => "ExFAT"
  | .Apfs => "APFS"

/-- `FileSystemType::display_name` from src/core/mod.rs. -/
def FileSystemType.display_name : FileSystemType → String
  | .Fat32 => "FAT32"
  | .ExFat => "exFAT"
  | .Ntfs => "NTFS"
  | .Ext4 => "ext4"
  | .Apfs => "APFS"

/-- `FileSystemType::macos_options` from src/core/mod.rs. -/
def FileSystemType.macos_options : List FileSystemType :=
  [.Apfs, .ExFat, .Fat32]

/-- `FileSystemType::linux_options` from src/core/mod.rs. -/
def FileSystemType.linux_options : List FileSystemType :=
  [.Ext4, .ExFat, .Fat32, .Ntfs]

/-- `DiskError` from src/core/mod.rs (payloads are the formatted detail
strings). -/
inductive DiskError where
  | ProtectedDevice
  | DeviceBusy
  | InsufficientPrivileges
  | DeviceNotFound (s : String)
  | UnsupportedFilesystem (s : String)
  | PlatformNotSupported
  | CommandFailed (s : String)
  | ParseError (s : String)
  | IoError (s : String)
deriving DecidableEq

/-! ## `parse_size` (src/platform/linux.rs, lines 113-139)

The function is embedded over `List Char` (lsblk size fields are ASCII, so
Rust's byte-indexed `split_at(len - 1)` coincides with the character split).

The numeric part is parsed in Rust with `parse::<f64>()`, whose finite
grammar — optional sign, digits with an optional fractional part, and an
optional power-of-ten exponent — is parsed here into an exact sign and
integer fraction, and `(n * multiplier as f64) as u64` becomes the exact
value of that expression: negative values clamp to 0, values at or above
2^64 saturate to `u64::MAX`, the rest truncate (`mulDivSat`). This is the
real-number semantics of the very expression the source evaluates in
`f64`; the two coincide except when the `f64` rounding error crosses an
integer boundary, and never when the product is an integer (an integral
product forces a dyadic numeral, which `f64` represents exactly). The
textual special values inf/infinity/NaN that Rust's `f64` parser also
accepts cannot occur in an lsblk size field and are outside the model.
The final `_ => size_str.parse().unwrap_or(0)` arm is Rust's `u64` parse:
an optional leading `+`, digits only, failing on overflow past
`u64::MAX` (`parseU64`). -/

/-- The whitespace test of Rust's `str::trim`, restricted to the ASCII
whitespace that can occur in lsblk size fields. -/
def isWhitespaceChar (c : Char) : Bool :=
  c = ' ' || c = '\t' || c = '\n' || c = '\r'

/-- Rust's `str::trim` on a character list. -/
def trimChars (l : List Char) : List Char :=
  ((l.dropWhile isWhitespaceChar).reverse.dropWhile isWhitespaceChar).reverse

/-- Value of a digit list read in base 10. -/
def digitsVal (l : List Char) : Nat :=
  l.foldl (fun acc c => acc * 10 + (c.toNat - 48)) 0

/-- Rust's `u64` parse as used by the fallback arm: an optional leading
`+`, then at least one digit, erring (hence 0 after `unwrap_or(0)`) on
values past `u64::MAX`. -/
def parseU64 (l : List Char) : Option Nat :=
  let r := match l with
    | '+' :: r => r
    | _ => l
  if r ≠ [] ∧ r.all Char.isDigit ∧ digitsVal r < 2 ^ 64 then some (digitsVal r)
  else none

/-- An optional leading sign: `true` for `-`; `+` and no sign are
positive. -/
def splitSign : List Char → Bool × List Char
  | '+' :: r => (false, r)
  | '-' :: r => (true, r)
  | l => (false, l)

/-- The exponent of a decimal numeral: an optional sign, then at least one
digit; the sign and the digits' value. -/
def parseExp (l : List Char) : Option (Bool × Nat) :=
  let s := splitSign l
  if s.2 ≠ [] ∧ s.2.all Char.isDigit then some (s.1, digitsVal s.2) else none

/-- The mantissa of a decimal numeral: digits with at most one decimal
point and at least one digit overall (`1`, `1.`, `1.5` and `.5` parse,
`.` and `1.2.3` do not, as in Rust's `f64` grammar). Returns the exact
value as numerator over a power-of-ten denominator. -/
def parseMantissa (l : List Char) : Option (Nat × Nat) :=
  match l.splitOn '.' with
  | [ip] =>
    if ip ≠ [] ∧ ip.all Char.isDigit then some (digitsVal ip, 1) else none
  | [ip, fp] =>
    if ip ++ fp ≠ [] ∧ ip.all Char.isDigit ∧ fp.all Char.isDigit then
      some (digitsVal (ip ++ fp), 10 ^ fp.length)
    else none
  | _ => none

/-- A finite decimal numeral of Rust's `f64` grammar: optional sign,
mantissa, optional `e`/`E` exponent. Returns the sign and the exact value
as an integer fraction (numerator, positive denominator). -/
def parseFloat (l : List Char) : Option (Bool × Nat × Nat) :=
  let s := splitSign l
  let parts := s.2.span (fun c => !(c = 'e' || c = 'E'))
  match parts.2 with
  | [] => (parseMantissa s.2).map (fun p => (s.1, p.1, p.2))
  | _ :: expChars =>
    match parseMantissa parts.1, parseExp expChars with
    | some p, some e =>
      if e.1 then some (s.1, p.1, p.2 * 10 ^ e.2)
      else some (s.1, p.1 * 10 ^ e.2, p.2)
    | _, _ => none

/-- Rust's `(n * multiplier as f64) as u64` on the exact fraction
`(neg, num, den)` times `m`: a negative value casts to 0, a value at or
above 2^64 saturates to `u64::MAX`, the rest truncates. Computed exactly:
the saturation test is `2^64 * den ≤ num * m` and the truncation is
integer division. -/
def mulDivSat (neg : Bool) (num den m : Nat) : Nat :=
  if neg then 0
  else if 2 ^ 64 * den ≤ num * m then 2 ^ 64 - 1
  else num * m / den

/-- The unit table of `parse_size`: the suffix is uppercased and matched
against B/K/M/G/T/P, binary multiples of 1024. -/
def unitMultiplier (c : Char) : Option Nat :=
  match c.toUpper with
  | 'B' => some 1
  | 'K' => some 1024
  | 'M' => some (1024 * 1024)
  | 'G' => some (1024 * 1024 * 1024)
  | 'T' => some (1024 * 1024 * 1024 * 1024)
  | 'P' => some (1024 * 1024 * 1024 * 1024 * 1024)
  | _ => none

/-- The body of `parse_size` applied to the already-trimmed input: the empty
string parses to 0; otherwise the last character is split off as the unit
suffix (`split_at(len - 1)` in the source); a recognised unit multiplies the
numeric prefix (itself re-trimmed), an unrecognised one falls back to
parsing the whole string as a raw byte count, and every parse failure
yields 0 (`unwrap_or(0)`). -/
def parseSizeTrimmed (t : List Char) : Nat :=
  match t.getLast? with
  | none => 0
  | some suffix =>
    match unitMultiplier suffix with
    | some m =>
      match parseFloat (trimChars t.dropLast) with
      | some v => mulDivSat v.1 v.2.1 v.2.2 m
      | none => 0
    | none => (parseU64 t).getD 0

/-- `parse_size` from src/platform/linux.rs. -/
def parse_size (s : List Char) : Nat :=
  parseSizeTrimmed (trimChars s)

/-! ## Writer thread aligned buffering (src/core/flasher.rs, lines 74-105)

The consumer thread accumulates received chunks in `buffer`, writes
`WRITE_BUFFER_SIZE`-byte blocks while the buffer holds at least that much
(`file.write_all(&buffer[..WRITE_BUFFER_SIZE]); buffer.drain(..)`), and
after the channel closes flushes the nonempty remainder unaligned. Bytes
are `Nat`; the device receives the list of issued writes in order. -/

/-- `WRITE_BUFFER_SIZE` from src/core/flasher.rs (1 MiB). -/
def WRITE_BUFFER_SIZE : Nat := 1 * 1024 * 1024

/-- The writer's inner `while buffer.len() >= WRITE_BUFFER_SIZE` loop,
with explicit fuel (the loop runs at most `length` times since each
iteration removes `WRITE_BUFFER_SIZE > 0` bytes): returns the aligned
writes issued and the remaining buffer. -/
def chopFuel : Nat → List Nat → List (List Nat) × List Nat
  | 0, l => ([], l)
  | fuel + 1, l =>
    if WRITE_BUFFER_SIZE ≤ l.length then
      let rest := chopFuel fuel (l.drop WRITE_BUFFER_SIZE)
      (l.take WRITE_BUFFER_SIZE :: rest.1, rest.2)
    else ([], l)

/-- The inner while loop with enough fuel to finish. -/
def chop (l : List Nat) : List (List Nat) × List Nat := chopFuel l.length l

/-- One iteration of the writer's `for chunk in data_rx` loop: append the
chunk to the buffer, then drain all full aligned blocks. -/
def consumerStep (acc : List (List Nat) × List Nat) (chunk : List Nat) :
    List (List Nat) × List Nat :=
  (acc.1 ++ (chop (acc.2 ++ chunk)).1, (chop (acc.2 ++ chunk)).2)

/-- The writer's receive loop over a whole chunk sequence, starting from an
empty write list and an empty buffer. -/
def consumerRun (chunks : List (List Nat)) : List (List Nat) × List Nat :=
  chunks.foldl consumerStep ([], [])

/-- All writes the writer thread issues for a chunk sequence: the aligned
blocks of the loop, then — only if the remaining buffer is nonempty — the
final unaligned flush. -/
def writerWrites (chunks : List (List Nat)) : List (List Nat) :=
  if (consumerRun chunks).2.isEmpty then (consumerRun chunks).1
  else (consumerRun chunks).1 ++ [(consumerRun chunks).2]

/-! ## Operation controller (src/app.rs)

`App` keeps the fields of the Rust struct that the state machine reads and
writes; the effectful handles (`disk_manager`, `flasher`, the tokio channel)
and the UI fields (`should_quit`, `tick`) are not part of any claim. Each
entry point returns the updated `App` together with the list of mutating
background operations it spawns (`tokio::spawn` bodies), so "performs no
mutation" is "spawns no operation". -/

/-- A mutating background operation handed to `tokio::spawn`. -/
inductive SpawnedOp where
  | unmountOp (path : String)
  | formatOp (path : String) (fs : FileSystemType) (label : String)
  | flashOp (url : String) (path : String)
deriving DecidableEq

/-- The state-machine fields of `App` from src/app.rs. -/
structure App where
  devices : List Device
  selected_index : Nat
  state : AppState
  input_buffer : String
  fs_options : List FileSystemType
  selected_fs_index : Nat
  isos : List Iso
  selected_iso_index : Nat
deriving DecidableEq

/-- `App::selected_device`. -/
def App.selected_device (a : App) : Option Device :=
  a.devices[a.selected_index]?

/-- `App::selected_fs`. -/
def App.selected_fs (a : App) : Option FileSystemType :=
  a.fs_options[a.selected_fs_index]?

/-- `App::selected_iso`. -/
def App.selected_iso (a : App) : Option Iso :=
  a.isos[a.selected_iso_index]?

/-- `App::flash_selected_iso` (src/app.rs lines 206-211): moves to
`ConfirmFlash` for the selected device and clears the input buffer; the
source performs no `is_protected` check here. -/
def App.flash_selected_iso (a : App) : App :=
  match a.selected_device with
  | some d => { a with state := .ConfirmFlash d.path, input_buffer := "" }
  | none => a

/-- `App::start_flashing` (src/app.rs lines 213-276): checks the typed
confirmation against the device path, then spawns the flash task; the
source performs no `is_protected` check on this path. -/
def App.start_flashing (a : App) : App × List SpawnedOp :=
  match a.selected_device with
  | none => (a, [])
  | some d =>
    if a.input_buffer ≠ d.path then
      ({ a with state := .Error ("Confirmation mismatch. Expected '" ++ d.path
          ++ "', got '" ++ a.input_buffer ++ "'") }, [])
    else
      match a.selected_iso with
      | none => (a, [])
      | some iso =>
        ({ a with state := .InProgress ("Starting flash of " ++ iso.name ++ "...") },
         [.flashOp iso.url d.path])

/-- `App::unmount_selected` (src/app.rs lines 290-314). -/
def App.unmount_selected (a : App) : App × List SpawnedOp :=
  match a.selected_device with
  | none => (a, [])
  | some d =>
    if d.is_protected then
      ({ a with state := .Error "Cannot unmount protected system drive" }, [])
    else
      ({ a with state := .InProgress "Unmounting..." }, [.unmountOp d.path])

/-- `App::format_selected` (src/app.rs lines 316-361): protection check
first, then the confirmation check, then the spawn. -/
def App.format_selected (a : App) : App × List SpawnedOp :=
  match a.selected_device with
  | none => (a, [])
  | some d =>
    if d.is_protected then
      ({ a with state := .Error "Cannot format protected system drive" }, [])
    else if a.input_buffer ≠ d.path then
      ({ a with state := .Error ("Confirmation mismatch. Expected '" ++ d.path
          ++ "', got '" ++ a.input_buffer ++ "'") }, [])
    else
      match a.selected_fs with
      | none => (a, [])
      | some fs =>
        ({ a with state := .InProgress ("Formatting " ++ d.path ++ " as "
            ++ fs.display_name ++ "...") },
         [.formatOp d.path fs "UNTITLED"])

/-- A protected system disk as macOS enumeration produces it (disk0 backs
the root filesystem, so `is_protected` is set). -/
def protectedDisk : Device :=
  { path := "/dev/disk0", name := "Disk disk0", size_bytes := 500107862016,
    filesystem := "GUID_partition_scheme", label := "disk0", mount_point := none,
    is_protected := true, is_removable := false }

/-- An ordinary removable USB disk. -/
def usbDisk : Device :=
  { path := "/dev/disk2", name := "Disk disk2", size_bytes := 15518924800,
    filesystem := "Windows_FAT_32", label := "disk2", mount_point := none,
    is_protected := false, is_removable := true }

/-- The first entry of the compiled-in image catalog (src/app.rs). -/
def debianIso : Iso :=
  { name := "Debian", version := "13", arch := "amd64",
    url := "https://cdimage.debian.org/debian-cd/current/amd64/iso-cd/debian-13.2.0-amd64-netinst.iso",
    variety := "Netinst" }

/-- The app with the protected disk selected, at the flash confirmation
with the exact device path already typed. -/
def appFlashProtected : App :=
  { devices := [protectedDisk], selected_index := 0,
    state := .ConfirmFlash "/dev/disk0", input_buffer := "/dev/disk0",
    fs_options := FileSystemType.macos_options, selected_fs_index := 0,
    isos := [debianIso], selected_iso_index := 0 }

/-- The same situation at the destructive-format confirmation. -/
def appFormatProtected : App :=
  { appFlashProtected with state := .ConfirmDestructive "/dev/disk0" }

/-- The USB disk selected at the format confirmation, with the spec's
example mismatch typed: the device path followed by a trailing space. -/
def appFormatMismatch : App :=
  { devices := [usbDisk], selected_index := 0,
    state := .ConfirmDestructive "/dev/disk2", input_buffer := "/dev/disk2 ",
    fs_options := FileSystemType.macos_options, selected_fs_index := 0,
    isos := [debianIso], selected_iso_index := 0 }

/-- The USB disk selected at the format confirmation with the exact path
typed. -/
def appFormatMatch : App :=
  { appFormatMismatch with input_buffer := "/dev/disk2" }

/-! ## Platform format requests (src/platform/macos.rs, src/platform/linux.rs)

The `format` implementations are embedded up to the decision point the
claims are about: either an early typed error, or the invocation of the
native formatter with its exact command and arguments. The mapping of the
native command's exit status and stderr back to `DiskError` lies after
that point and is not needed here. -/

/-- The outcome of `format` up to the native invocation. -/
inductive FormatOutcome where
  | err (e : DiskError)
  | invoke (cmd : String) (args : List String)
deriving DecidableEq

/-- Whether the outcome reaches the native formatter. -/
def FormatOutcome.isInvoke : FormatOutcome → Bool
  | .invoke _ _ => true
  | _ => false

/-- Whether the outcome is the fail-fast `UnsupportedFilesystem` error. -/
def FormatOutcome.isUnsupportedErr : FormatOutcome → Bool
  | .err (.UnsupportedFilesystem _) => true
  | _ => false

/-- `path.strip_prefix("/dev/")` from `MacOSDiskManager::format`. -/
def devPrefixStripped (path : List Char) : Option (List Char) :=
  if path.take 5 = "/dev/".data then some (path.drop 5) else none

/-- `extract_parent_disk` from src/platform/macos.rs lines 176-186: find
the rightmost position `i ≥ 1` where an `s` follows a digit and keep the
part before it; return the identifier unchanged when there is none. -/
def extract_parent_disk (identifier : List Char) : List Char :=
  match (List.range identifier.length).reverse.find? (fun i =>
      decide (1 ≤ i) && decide (identifier.getD i ' ' = 's')
        && (identifier.getD (i - 1) ' ').isDigit) with
  | some i => identifier.take i
  | none => identifier

/-- `MacOSDiskManager::format` (src/platform/macos.rs lines 130-157) up to
the `diskutil eraseDisk` invocation: privilege check, `/dev/` strip,
parent-disk extraction, then the invocation with
`fs_type.as_diskutil_format()` — no filesystem kind is rejected. -/
def macosFormatRequest (hasPriv : Bool) (path : List Char) (fs : FileSystemType)
    (label : String) : FormatOutcome :=
  if hasPriv = false then .err .InsufficientPrivileges
  else
    match devPrefixStripped path with
    | none => .err (.DeviceNotFound (String.mk path))
    | some identifier =>
      .invoke "diskutil" ["eraseDisk", fs.as_diskutil_format, label,
        String.mk (extract_parent_disk identifier)]

/-- `LinuxDiskManager::format` (src/platform/linux.rs lines 199-221) up to
the `mkfs.*` invocation: privilege check, then the per-kind command table,
with `Apfs` rejected as unsupported before any invocation. -/
def linuxFormatRequest (hasPriv : Bool) (path : String) (fs : FileSystemType)
    (label : String) : FormatOutcome :=
  if hasPriv = false then .err .InsufficientPrivileges
  else
    match fs with
    | .Fat32 => .invoke "mkfs.vfat" ["-F", "32", "-n", label, path]
    | .ExFat => .invoke "mkfs.exfat" ["-n", label, path]
    | .Ntfs => .invoke "mkfs.ntfs" ["-f", "-L", label, path]
    | .Ext4 => .invoke "mkfs.ext4" ["-L", label, path]
    | .Apfs => .err (.UnsupportedFilesystem "APFS is not supported on Linux")

/-! ## Producer loop (src/core/flasher.rs, lines 122-177)

The download loop is embedded over the sequence of chunks it would pull
from the stream, each given with its length and its wall-clock arrival in
milliseconds. The writer thread's fate is a parameter: `sendFailAt = some k`
means the writer has died before the send of chunk `k` (every send from
index `k` on fails), and `writerRes` is what joining the writer returns.
Per iteration the source sends the chunk, adds its length to
`bytes_processed`, and emits a progress report only when more than 100 ms
have passed since `last_update_time` (initialised at loop start). -/

/-- The result the pipeline returns. `channelClosed` is the generic
`SendError` surfaced directly; it is in the type precisely so that the
theorems can state the pipeline never produces it. -/
inductive FlashResult where
  | success
  | writerFailed (msg : String)
  | writerPanicked (msg : String)
  | channelClosed
deriving DecidableEq

/-- What joining the writer thread yields. -/
inductive WriterOutcome where
  | ok
  | ioErr (msg : String)
  | panicked (msg : String)
deriving DecidableEq

/-- Joining at end-of-stream (lines 168-175): the writer's own result is
propagated, a panic becomes a distinct error. -/
def joinAtEof : WriterOutcome → FlashResult
  | .ok => .success
  | .ioErr m => .writerFailed m
  | .panicked m => .writerPanicked ("Writer thread panicked: " ++ m)

/-- Joining in the send-failure branch (lines 134-144):
`result.context("Writer thread failed")` keeps the writer's actual error
under the added context; a panic becomes a distinct error. -/
def joinAtSendFailure : WriterOutcome → FlashResult
  | .ok => .success
  | .ioErr m => .writerFailed ("Writer thread failed: " ++ m)
  | .panicked m => .writerPanicked ("Writer thread panicked: " ++ m)

/-- The producer's running state: cumulative bytes, the last emission time
and the emitted reports in order. -/
structure ProducerState where
  bytesProcessed : Nat
  lastUpdate : Nat
  emissions : List FlashProgress
deriving DecidableEq

/-- The throttled progress emission (lines 148-165): emit only when more
than 100 ms have passed since the last update; `speed_mbps` is cumulative
bytes over 1e6 divided by elapsed seconds, `percent` is cumulative bytes
over the total times 100. -/
def emitStep (totalSize t0 : Nat) (st : ProducerState) (now : Nat) : ProducerState :=
  if 100 < now - st.lastUpdate then
    { bytesProcessed := st.bytesProcessed,
      lastUpdate := now,
      emissions := st.emissions ++
        [{ bytes_written := st.bytesProcessed,
           total_bytes := totalSize,
           speed_mbps := ((st.bytesProcessed : ℚ) / 1000000)
             / (((now - t0 : Nat) : ℚ) / 1000),
           percent := ((st.bytesProcessed : ℚ) / (totalSize : ℚ)) * 100 }] }
  else st

/-- Whether the send of chunk `i` fails (the writer died at index `k`). -/
def sendFails (sendFailAt : Option Nat) (i : Nat) : Bool :=
  match sendFailAt with
  | some k => decide (k ≤ i)
  | none => false

/-- The `while let Some(item) = stream.next().await` loop, from chunk
index `i`: on a failed send the producer stops reading, joins the writer
and returns its error; at end-of-stream it closes the queue and joins.
Returns the pipeline result, how many chunks were read, and the final
producer state. -/
def producerLoop (totalSize t0 : Nat) (sendFailAt : Option Nat)
    (writerRes : WriterOutcome) :
    List (Nat × Nat) → Nat → ProducerState → FlashResult × Nat × ProducerState
  | [], i, st => (joinAtEof writerRes, i, st)
  | (len, t) :: rest, i, st =>
    if sendFails sendFailAt i then
      (joinAtSendFailure writerRes, i + 1, st)
    else
      producerLoop totalSize t0 sendFailAt writerRes rest (i + 1)
        (emitStep totalSize t0
          { bytesProcessed := st.bytesProcessed + len,
            lastUpdate := st.lastUpdate, emissions := st.emissions } t)

/-- The whole producer run: index 0, zero bytes, `last_update_time`
initialised to the start instant `t0`, no emissions yet. -/
def producerRun (totalSize t0 : Nat) (chunks : List (Nat × Nat))
    (sendFailAt : Option Nat) (writerRes : WriterOutcome) :
    FlashResult × Nat × ProducerState :=
  producerLoop totalSize t0 sendFailAt writerRes chunks 0
    { bytesProcessed := 0, lastUpdate := t0, emissions := [] }

/-! ## The flash background task (src/app.rs, lines 241-275)

The task spawned by `start_flashing` is a straight line of calls whose
results are parameters here: unmount, then `flasher.flash` on the raw
device node (on macOS `/dev/disk` is rewritten to `/dev/rdisk`), then — on
success only — eject. It communicates only by pushing `AppState` values
into the inbox; the embedding returns that pushed sequence together with
the external calls made, in order. The intermediate `Flashing` progress
states pushed from inside `flasher.flash` are the producer model's
emissions and are not repeated here. -/

/-- Result of a disk-manager call or of `flasher.flash`, with its rendered
error message. -/
inductive OpResult where
  | ok
  | err (msg : String)
deriving DecidableEq

/-- An external call the task performs. -/
inductive TaskAction where
  | unmountCall (path : String)
  | flashCall (url : String) (flashPath : String)
  | ejectCall (path : String)
deriving DecidableEq

/-- Whether an action is the invocation of `flasher.flash` (whose body
performs the pre-flight HTTP request, the device open and all writes). -/
def TaskAction.isFlashCall : TaskAction → Bool
  | .flashCall _ _ => true
  | _ => false

/-- The task body: pushed states and calls, in order. -/
def flashTask (isMacOS : Bool) (path isoName url : String)
    (unmountRes flashRes ejectRes : OpResult) : List AppState × List TaskAction :=
  match unmountRes with
  | .err e =>
    ([.InProgress ("Unmounting " ++ path ++ "..."),
      .Error ("Failed to unmount: " ++ e)],
     [.unmountCall path])
  | .ok =>
    let flashPath := if isMacOS then path.replace "/dev/disk" "/dev/rdisk" else path
    match flashRes with
    | .err e =>
      ([.InProgress ("Unmounting " ++ path ++ "..."),
        .InProgress ("Flashing " ++ isoName ++ "..."),
        .Error e],
       [.unmountCall path, .flashCall url flashPath])
    | .ok =>
      match ejectRes with
      | .err e =>
        ([.InProgress ("Unmounting " ++ path ++ "..."),
          .InProgress ("Flashing " ++ isoName ++ "..."),
          .InProgress "Ejecting device...",
          .Success ("Flash complete, but eject failed: " ++ e)],
         [.unmountCall path, .flashCall url flashPath, .ejectCall path])
      | .ok =>
        ([.InProgress ("Unmounting " ++ path ++ "..."),
          .InProgress ("Flashing " ++ isoName ++ "..."),
          .InProgress "Ejecting device...",
          .Success "Flash complete! Device ejected safely."],
         [.unmountCall path, .flashCall url flashPath, .ejectCall path])

/-! ## The bounded hand-off channel (src/core/flasher.rs, lines 16 and 66-68)

`sync_channel(CHANNEL_BOUND)` from the Rust standard library: a send on a
full queue blocks, a receive on an empty queue blocks (or ends the
consumer's loop once the channel is closed). The queue is embedded by its
occupancy; a blocked operation is `none`. -/

/-- `CHANNEL_BOUND` from src/core/flasher.rs. -/
def CHANNEL_BOUND : Nat := 4

/-- A producer send or a consumer receive. -/
inductive ChanOp where
  | send
  | recv
deriving DecidableEq

/-- One channel operation on a queue holding `n` chunks: a send completes
only below the bound, a receive only on a nonempty queue; `none` is an
operation that blocks instead of completing. -/
def chanStep (n : Nat) : ChanOp → Option Nat
  | .send => if n < CHANNEL_BOUND then some (n + 1) else none
  | .recv => if 0 < n then some (n - 1) else none

/-- Run a sequence of channel operations; `none` as soon as one blocks. -/
def runChanOps (n : Nat) : List ChanOp → Option Nat
  | [] => some n
  | op :: rest =>
    match chanStep n op with
    | some m => runChanOps m rest
    | none => none

/-- Queue occupancies reachable from the empty queue by completed
operations. -/
inductive ChanReachable : Nat → Prop where
  | init : ChanReachable 0
  | step (n m : Nat) (op : ChanOp) :
      ChanReachable n → chanStep n op = some m → ChanReachable m

/-! ## Theorems -/


/-- A digit character is not whitespace. -/
theorem digit_not_ws (c : Char) (h : c.isDigit = true) : isWhitespaceChar c = false := by
  rcases h2 : isWhitespaceChar c with _ | _
  · rfl
  · exfalso
    simp only [isWhitespaceChar, Bool.or_eq_true, decide_eq_true_eq] at h2
    rcases h2 with ((rfl | rfl) | rfl) | rfl <;> exact absurd h (by decide)

/-- A recognised unit character is not whitespace. -/
theorem unit_not_ws (u : Char) (m : Nat) (h : unitMultiplier u = some m) :
    isWhitespaceChar u = false := by
  rcases h2 : isWhitespaceChar u with _ | _
  · rfl
  · exfalso
    have h3 : unitMultiplier u = none := by
      simp only [isWhitespaceChar, Bool.or_eq_true, decide_eq_true_eq] at h2
      rcases h2 with ((rfl | rfl) | rfl) | rfl <;> rfl
    rw [h3] at h
    cases h

/-- `dropWhile` is the identity on a whitespace-free list. -/
theorem dropWhile_ws_eq_self (l : List Char) (h : ∀ c ∈ l, isWhitespaceChar c = false) :
    l.dropWhile isWhitespaceChar = l := by
  cases l with
  | nil => rfl
  | cons a t =>
    rw [List.dropWhile_cons]
    simp [h a (List.mem_cons_self a t)]

/-- `trimChars` is the identity on a whitespace-free list. -/
theorem trimChars_eq_self (l : List Char) (h : ∀ c ∈ l, isWhitespaceChar c = false) :
    trimChars l = l := by
  unfold trimChars
  rw [dropWhile_ws_eq_self l h,
    dropWhile_ws_eq_self l.reverse (fun c hc => h c (List.mem_reverse.mp hc)),
    List.reverse_reverse]

/-- Splitting off a concatenated unit suffix steps `parseSizeTrimmed` to
the unit branch. -/
theorem parseSizeTrimmed_concat (num : List Char) (u : Char) :
    parseSizeTrimmed (num ++ [u]) =
      match unitMultiplier u with
      | some m =>
        match parseFloat (trimChars num) with
        | some v => mulDivSat v.1 v.2.1 v.2.2 m
        | none => 0
      | none => (parseU64 (num ++ [u])).getD 0 := by
  unfold parseSizeTrimmed
  rw [List.getLast?_concat, List.dropLast_concat]

/-- C7 (counterexample). The claim says every malformed or empty string —
every string not of the form `<number><unit>` with unit in {B,K,M,G,T,P} —
parses to 0; but the source's fallback arm parses a bare digit string with
no unit at all as a raw byte count: `parse_size "123" = 123 ≠ 0`. -/
theorem parse_size_bare_number :
    parse_size "123".data = 123 ∧ (123 : Nat) ≠ 0 :=
  ⟨by decide, by decide⟩

/-- C7 (amended). For every size string `<number><unit>` whose unit is
recognised case-insensitively from {B,K,M,G,T,P} and whose `<number>` is a
finite decimal numeral of Rust's `f64` grammar — optional sign, digits
with an optional fractional part, optional power-of-ten exponent, here
given by its exact parse `(neg, num, den)` — `parse_size` returns the
numeral's value times the unit's multiplier, truncated to a `u64`:
negative values clamp to 0, oversized ones saturate, the rest take the
integer part (so fractional lsblk sizes are honoured, e.g.
`parse_size "2.5K" = 2560`, not rejected). The unit table is exactly the
binary powers 1024^0 .. 1024^5. The empty string parses to 0, as do
strings whose numeric part fails the respective parse (e.g. `"12X"`,
`"abc"`); a string with no recognised unit suffix is instead parsed whole
as an unsigned integer, which is what the `"123"` counterexample
exhibits. -/
theorem parse_size_amended (t : List Char) (u : Char) (neg : Bool) (num den m : Nat)
    (hws : ∀ c ∈ t, isWhitespaceChar c = false)
    (hq : parseFloat t = some (neg, num, den))
    (hu : unitMultiplier u = some m) :
    parse_size (t ++ [u]) = mulDivSat neg num den m
    ∧ parse_size [] = 0
    ∧ parse_size "12X".data = 0
    ∧ parse_size "abc".data = 0
    ∧ unitMultiplier 'B' = some (1024 ^ 0)
    ∧ unitMultiplier 'K' = some (1024 ^ 1)
    ∧ unitMultiplier 'M' = some (1024 ^ 2)
    ∧ unitMultiplier 'G' = some (1024 ^ 3)
    ∧ unitMultiplier 'T' = some (1024 ^ 4)
    ∧ unitMultiplier 'P' = some (1024 ^ 5) := by
  refine ⟨?_, rfl, by decide, by decide, rfl, rfl, rfl, rfl, rfl, rfl⟩
  have hwsall : ∀ c ∈ t ++ [u], isWhitespaceChar c = false := by
    intro c hc
    rcases List.mem_append.mp hc with h1 | h1
    · exact hws c h1
    · rw [List.mem_singleton.mp h1]
      exact unit_not_ws u m hu
  unfold parse_size
  rw [trimChars_eq_self _ hwsall, parseSizeTrimmed_concat, hu,
    trimChars_eq_self _ hws, hq]

/-- Witness for `parse_size_amended` at the fractional input `"2.5K"`
(lsblk's usual shape): its exact parse is 25/10, and the result is
2.5 · 1024 = 2560. -/
theorem parse_size_amended_witness :
    parse_size ("2.5".data ++ ['K']) = mulDivSat false 25 10 1024
    ∧ mulDivSat false 25 10 1024 = 2560 :=
  ⟨(parse_size_amended "2.5".data 'K' false 25 10 1024 (by decide) (by decide)
      (by decide)).1,
   by decide⟩

/-- The aligned-write loop reassembles exactly its input: writes then
remainder concatenate to the buffer it started from. -/
theorem chopFuel_join (fuel : Nat) (l : List Nat) :
    (chopFuel fuel l).1.flatten ++ (chopFuel fuel l).2 = l := by
  induction fuel generalizing l with
  | zero => simp [chopFuel]
  | succ n ih =>
    unfold chopFuel
    by_cases h : WRITE_BUFFER_SIZE ≤ l.length
    · rw [if_pos h]
      simp only [List.flatten_cons, List.append_assoc, ih]
      exact List.take_append_drop _ l
    · rw [if_neg h]
      simp

/-- Every write the aligned loop issues is exactly one full block. -/
theorem chopFuel_blocks (fuel : Nat) (l : List Nat) :
    ∀ w ∈ (chopFuel fuel l).1, w.length = WRITE_BUFFER_SIZE := by
  induction fuel generalizing l with
  | zero => simp [chopFuel]
  | succ n ih =>
    unfold chopFuel
    by_cases h : WRITE_BUFFER_SIZE ≤ l.length
    · rw [if_pos h]
      intro w hw
      rcases List.mem_cons.mp hw with rfl | hw2
      · rw [List.length_take]
        exact Nat.min_eq_left h
      · exact ih _ w hw2
    · rw [if_neg h]
      intro w hw
      cases hw

/-- With enough fuel the remainder is below one full block. -/
theorem chopFuel_rem (fuel : Nat) (l : List Nat) (hf : l.length ≤ fuel) :
    (chopFuel fuel l).2.length < WRITE_BUFFER_SIZE := by
  induction fuel generalizing l with
  | zero =>
    have h0 : l = [] := List.length_eq_zero.mp (Nat.le_zero.mp hf)
    subst h0
    decide
  | succ n ih =>
    unfold chopFuel
    by_cases h : WRITE_BUFFER_SIZE ≤ l.length
    · rw [if_pos h]
      refine ih _ ?_
      rw [List.length_drop]
      have hw : WRITE_BUFFER_SIZE = 1048576 := rfl
      omega
    · rw [if_neg h]
      exact Nat.not_le.mp h

/-- `chop` reassembles its input. -/
theorem chop_join (l : List Nat) : (chop l).1.flatten ++ (chop l).2 = l :=
  chopFuel_join l.length l

/-- Every `chop` write is one full block. -/
theorem chop_blocks (l : List Nat) : ∀ w ∈ (chop l).1, w.length = WRITE_BUFFER_SIZE :=
  chopFuel_blocks l.length l

/-- The `chop` remainder is below one full block. -/
theorem chop_rem (l : List Nat) : (chop l).2.length < WRITE_BUFFER_SIZE :=
  chopFuel_rem l.length l (Nat.le_refl _)

/-- Invariant of the writer's receive loop: from any accumulator whose
writes are full blocks and whose buffer is partial, folding any chunk list
keeps those facts and conserves the bytes in order. -/
theorem consumerFold_inv (chunks : List (List Nat)) (acc : List (List Nat) × List Nat)
    (h1 : ∀ w ∈ acc.1, w.length = WRITE_BUFFER_SIZE)
    (h2 : acc.2.length < WRITE_BUFFER_SIZE) :
    (chunks.foldl consumerStep acc).1.flatten ++ (chunks.foldl consumerStep acc).2
        = acc.1.flatten ++ (acc.2 ++ chunks.flatten)
    ∧ (∀ w ∈ (chunks.foldl consumerStep acc).1, w.length = WRITE_BUFFER_SIZE)
    ∧ (chunks.foldl consumerStep acc).2.length < WRITE_BUFFER_SIZE := by
  induction chunks generalizing acc with
  | nil => exact ⟨by simp, h1, h2⟩
  | cons c cs ih =>
    rw [List.foldl_cons]
    have h1s : ∀ w ∈ (consumerStep acc c).1, w.length = WRITE_BUFFER_SIZE := by
      intro w hw
      rcases List.mem_append.mp hw with hw1 | hw1
      · exact h1 w hw1
      · exact chop_blocks _ w hw1
    have h2s : (consumerStep acc c).2.length < WRITE_BUFFER_SIZE := chop_rem _
    obtain ⟨e1, e2, e3⟩ := ih (consumerStep acc c) h1s h2s
    refine ⟨?_, e2, e3⟩
    rw [e1]
    show (acc.1 ++ (chop (acc.2 ++ c)).1).flatten ++ ((chop (acc.2 ++ c)).2 ++ cs.flatten)
        = acc.1.flatten ++ (acc.2 ++ (c :: cs).flatten)
    calc (acc.1 ++ (chop (acc.2 ++ c)).1).flatten ++ ((chop (acc.2 ++ c)).2 ++ cs.flatten)
        = acc.1.flatten ++ ((chop (acc.2 ++ c)).1.flatten ++ (chop (acc.2 ++ c)).2
            ++ cs.flatten) := by
          rw [List.flatten_append]
          simp [List.append_assoc]
      _ = acc.1.flatten ++ ((acc.2 ++ c) ++ cs.flatten) := by rw [chop_join]
      _ = acc.1.flatten ++ (acc.2 ++ (c :: cs).flatten) := by
          simp [List.flatten_cons, List.append_assoc]

/-- C2. Write pipeline aligned-buffering law: for any sequence of input
chunks the writes the consumer thread issues, concatenated in order, are
exactly the input bytes; every write before the last is exactly one
`WRITE_BUFFER_SIZE` (1 MiB) block; no write is empty and none exceeds a
block; and the buffered remainder at end-of-stream — flushed unaligned only
when nonempty — is always smaller than a block. -/
theorem flasher_write_exact (chunks : List (List Nat)) :
    (writerWrites chunks).flatten = chunks.flatten
    ∧ ((writerWrites chunks).dropLast.all fun w =>
        w.length == WRITE_BUFFER_SIZE) = true
    ∧ ((writerWrites chunks).all fun w =>
        !w.isEmpty && decide (w.length ≤ WRITE_BUFFER_SIZE)) = true
    ∧ (consumerRun chunks).2.length < WRITE_BUFFER_SIZE := by
  obtain ⟨e1, e2, e3⟩ := consumerFold_inv chunks ([], [])
    (by intro w hw; cases hw) (by decide)
  have hrun : consumerRun chunks = chunks.foldl consumerStep ([], []) := rfl
  rw [← hrun] at e1 e2 e3
  simp only [List.flatten_nil, List.nil_append] at e1
  refine ⟨?_, ?_, ?_, e3⟩
  · unfold writerWrites
    by_cases h : (consumerRun chunks).2.isEmpty
    · rw [if_pos h]
      rw [List.isEmpty_iff] at h
      rw [h, List.append_nil] at e1
      exact e1
    · rw [if_neg h]
      rw [List.flatten_append]
      simpa using e1
  · unfold writerWrites
    by_cases h : (consumerRun chunks).2.isEmpty
    · rw [if_pos h]
      refine List.all_eq_true.mpr ?_
      intro w hw
      exact beq_iff_eq.mpr (e2 w (List.dropLast_sublist _ |>.mem hw))
    · rw [if_neg h, List.dropLast_concat]
      refine List.all_eq_true.mpr ?_
      intro w hw
      exact beq_iff_eq.mpr (e2 w hw)
  · unfold writerWrites
    have hblock : ∀ w ∈ (consumerRun chunks).1,
        (!w.isEmpty && decide (w.length ≤ WRITE_BUFFER_SIZE)) = true := by
      intro w hw
      have hl := e2 w hw
      have hwne : w.isEmpty = false := by
        rcases w with _ | _
        · rw [List.length_nil] at hl
          exact absurd hl.symm (by decide)
        · rfl
      simp [hwne, hl]
    by_cases h : (consumerRun chunks).2.isEmpty
    · rw [if_pos h]
      exact List.all_eq_true.mpr hblock
    · rw [if_neg h]
      refine List.all_eq_true.mpr ?_
      intro w hw
      rcases List.mem_append.mp hw with hw1 | hw1
      · exact hblock w hw1
      · rw [List.mem_singleton.mp hw1]
        have hne : (consumerRun chunks).2.isEmpty = false := Bool.eq_false_iff.mpr h
        simp [hne, Nat.le_of_lt e3]

/-- C1. The unmount and format entry points do reject a protected device
pre-emptively with an `Error`, but the flash path does not: with the
protected system disk selected, `flash_selected_iso` moves to the
confirmation step instead of an `Error`, and `start_flashing` accepts the
typed path and spawns the flash of the protected disk. -/
theorem flash_path_ignores_protected :
    protectedDisk.is_protected = true
    ∧ appFlashProtected.selected_device = some protectedDisk
    ∧ (appFlashProtected.start_flashing).2
        = [.flashOp debianIso.url "/dev/disk0"]
    ∧ (appFlashProtected.start_flashing).1.state
        = .InProgress "Starting flash of Debian..."
    ∧ (appFlashProtected.flash_selected_iso).state = .ConfirmFlash "/dev/disk0"
    ∧ (appFormatProtected.format_selected).2 = []
    ∧ (appFormatProtected.format_selected).1.state
        = .Error "Cannot format protected system drive"
    ∧ (appFormatProtected.unmount_selected).2 = []
    ∧ (appFormatProtected.unmount_selected).1.state
        = .Error "Cannot unmount protected system drive" := by
  decide

/-- C3 (counterexample). With the protected system disk selected and the
confirmation text equal to its path byte-for-byte, `format_selected` does
not proceed to the mutating call and the `Error` it raises names neither
the expected nor the actual text — so "proceeds if and only if the text
equals the path, any other text yields the mismatch error" is false as
quantified over every selected device. -/
theorem format_protected_match_counterexample :
    appFormatProtected.input_buffer = protectedDisk.path
    ∧ (appFormatProtected.format_selected).2 = []
    ∧ (appFormatProtected.format_selected).1.state
        = .Error "Cannot format protected system drive" := by
  decide

/-- C3 (amended). For a selected, non-protected device with a filesystem
and an image selected: the mutating operation (format or flash) is spawned
if and only if the typed text equals the device path byte-for-byte; on a
match exactly the format/flash operation is spawned; on any other text both
entry points spawn nothing and leave the app unchanged except for the
`Error` state naming the expected and the actual text verbatim. (The flash
path in the source does not consult `is_protected` at all, so for it the
equivalence holds for every device; the protection hypothesis is what the
`format_selected` protection check forces.) -/
theorem confirmation_gate (a : App) (d : Device) (fs : FileSystemType) (iso : Iso)
    (hd : a.selected_device = some d) (hp : d.is_protected = false)
    (hfs : a.selected_fs = some fs) (hiso : a.selected_iso = some iso) :
    ((a.format_selected).2 ≠ [] ↔ a.input_buffer = d.path)
    ∧ ((a.start_flashing).2 ≠ [] ↔ a.input_buffer = d.path)
    ∧ (a.input_buffer = d.path →
        (a.format_selected).2 = [.formatOp d.path fs "UNTITLED"]
        ∧ (a.start_flashing).2 = [.flashOp iso.url d.path])
    ∧ (a.input_buffer ≠ d.path →
        a.format_selected
          = ({ a with state := .Error ("Confirmation mismatch. Expected '" ++ d.path
              ++ "', got '" ++ a.input_buffer ++ "'") }, [])
        ∧ a.start_flashing
          = ({ a with state := .Error ("Confirmation mismatch. Expected '" ++ d.path
              ++ "', got '" ++ a.input_buffer ++ "'") }, [])) := by
  by_cases hb : a.input_buffer = d.path
  · have h1 : a.format_selected
        = ({ a with state := .InProgress ("Formatting " ++ d.path ++ " as "
            ++ fs.display_name ++ "...") }, [.formatOp d.path fs "UNTITLED"]) := by
      unfold App.format_selected
      rw [hd]
      simp [hp, hb, hfs]
    have h2 : a.start_flashing
        = ({ a with state := .InProgress ("Starting flash of " ++ iso.name
            ++ "...") }, [.flashOp iso.url d.path]) := by
      unfold App.start_flashing
      rw [hd]
      simp [hb, hiso]
    rw [h1, h2]
    refine ⟨by simp [hb], by simp [hb], fun _ => ⟨rfl, rfl⟩, fun h => absurd hb h⟩
  · have h1 : a.format_selected
        = ({ a with state := .Error ("Confirmation mismatch. Expected '" ++ d.path
            ++ "', got '" ++ a.input_buffer ++ "'") }, []) := by
      unfold App.format_selected
      rw [hd]
      simp [hp, hb]
    have h2 : a.start_flashing
        = ({ a with state := .Error ("Confirmation mismatch. Expected '" ++ d.path
            ++ "', got '" ++ a.input_buffer ++ "'") }, []) := by
      unfold App.start_flashing
      rw [hd]
      simp [hb]
    rw [h1, h2]
    exact ⟨by simp [hb], by simp [hb], fun h => absurd h hb, fun _ => ⟨rfl, rfl⟩⟩

/-- Witness for `confirmation_gate`: the spec's own example — device path
`/dev/disk2`, typed text `/dev/disk2 ` (trailing space) — yields the
mismatch error citing both strings verbatim and spawns nothing, while the
exact path spawns exactly the format of `/dev/disk2`. -/
theorem confirmation_gate_witness :
    (appFormatMismatch.format_selected).1.state
      = .Error "Confirmation mismatch. Expected '/dev/disk2', got '/dev/disk2 '"
    ∧ (appFormatMismatch.format_selected).2 = []
    ∧ (appFormatMatch.format_selected).2
      = [.formatOp "/dev/disk2" .Apfs "UNTITLED"] := by
  obtain ⟨-, -, -, h4⟩ := confirmation_gate appFormatMismatch usbDisk .Apfs debianIso
    rfl rfl rfl rfl
  obtain ⟨hm, -⟩ := h4 (by decide)
  obtain ⟨-, -, h3, -⟩ := confirmation_gate appFormatMatch usbDisk .Apfs debianIso
    rfl rfl rfl rfl
  obtain ⟨hf, -⟩ := h3 rfl
  exact ⟨by rw [hm]; try rfl, by rw [hm]; try rfl, by rw [hf]; try rfl⟩

/-- C5 (counterexample). On macOS a format request for ext4 does not fail
fast with an "unsupported filesystem" error: `as_diskutil_format` silently
substitutes `"ExFAT"` (the source comment calls it a fallback) and `format`
proceeds to invoke `diskutil eraseDisk ExFAT`. -/
theorem macos_ext4_silent_fallback :
    macosFormatRequest true "/dev/disk2".data .Ext4 "UNTITLED"
      = .invoke "diskutil" ["eraseDisk", "ExFAT", "UNTITLED", "disk2"]
    ∧ (macosFormatRequest true "/dev/disk2".data .Ext4 "UNTITLED").isUnsupportedErr
      = false
    ∧ FileSystemType.Ext4.as_diskutil_format = "ExFAT" := by
  decide

/-- C5 (amended). The mapping to the native formatter's naming is a pure
total function per kind. On Linux, `format` rejects exactly APFS with an
`UnsupportedFilesystem` error before invoking the native formatter and
invokes `mkfs.*` for every other kind; on macOS, no kind is rejected —
in particular ext4 is silently mapped to `"ExFAT"` and handed to
`diskutil eraseDisk` instead of failing fast. -/
theorem format_kind_platform_support (path label : String) (devPath : List Char) :
    (∀ fs : FileSystemType,
      (linuxFormatRequest true path fs label).isUnsupportedErr = true ↔ fs = .Apfs)
    ∧ linuxFormatRequest true path .Apfs label
        = .err (.UnsupportedFilesystem "APFS is not supported on Linux")
    ∧ FileSystemType.Ext4.as_diskutil_format = "ExFAT"
    ∧ (∀ fs : FileSystemType,
        (macosFormatRequest true ("/dev/".data ++ devPath) fs label).isUnsupportedErr
          = false)
    ∧ (∀ fs : FileSystemType, fs ≠ .Apfs →
        (linuxFormatRequest true path fs label).isInvoke = true) := by
  have hmac : ∀ fs : FileSystemType,
      macosFormatRequest true ("/dev/".data ++ devPath) fs label
        = .invoke "diskutil" ["eraseDisk", fs.as_diskutil_format, label,
            String.mk (extract_parent_disk devPath)] := by
    intro fs
    have hstrip : devPrefixStripped ("/dev/".data ++ devPath) = some devPath := by
      unfold devPrefixStripped
      rw [if_pos]
      · rw [show (5 : Nat) = "/dev/".data.length from rfl, List.drop_left]
      · rw [show (5 : Nat) = "/dev/".data.length from rfl]
        exact List.take_left _ _
    unfold macosFormatRequest
    rw [if_neg (by decide), hstrip]
  refine ⟨?_, rfl, rfl, ?_, ?_⟩
  · intro fs
    cases fs <;> simp [linuxFormatRequest, FormatOutcome.isUnsupportedErr]
  · intro fs
    rw [hmac fs]
    rfl
  · intro fs h
    cases fs <;> simp_all [linuxFormatRequest, FormatOutcome.isInvoke]

/-- Witness for `format_kind_platform_support` at ext4 on both platforms:
Linux invokes the native formatter for ext4, macOS does not reject it. -/
theorem format_kind_platform_support_witness :
    (linuxFormatRequest true "/dev/sdb" .Ext4 "UNTITLED").isInvoke = true
    ∧ (macosFormatRequest true ("/dev/".data ++ "disk2".data) .Ext4
        "UNTITLED").isUnsupportedErr = false :=
  ⟨(format_kind_platform_support "/dev/sdb" "UNTITLED" "disk2".data).2.2.2.2 .Ext4
      (by decide),
   (format_kind_platform_support "/dev/sdb" "UNTITLED" "disk2".data).2.2.2.1 .Ext4⟩

/-- In the send-failure branch the producer loop, entered at index `i` with
the writer dead since index `k` (`i ≤ k`, and `k` still within the
remaining stream), reads exactly up to chunk `k` and returns the joined
writer's result under the "Writer thread failed" context. -/
theorem producerLoop_send_failure (totalSize t0 k : Nat) (w : WriterOutcome)
    (chunks : List (Nat × Nat)) (i : Nat) (st : ProducerState)
    (hik : i ≤ k) (hlen : k < i + chunks.length) :
    (producerLoop totalSize t0 (some k) w chunks i st).1 = joinAtSendFailure w
    ∧ (producerLoop totalSize t0 (some k) w chunks i st).2.1 = k + 1 := by
  induction chunks generalizing i st with
  | nil =>
    rw [List.length_nil] at hlen
    exact absurd hik (by omega)
  | cons c cs ih =>
    rcases c with ⟨len, t⟩
    unfold producerLoop
    by_cases h : sendFails (some k) i = true
    · rw [if_pos h]
      have hk : k ≤ i := by simpa [sendFails] using h
      have hik2 : i = k := Nat.le_antisymm hik hk
      exact ⟨rfl, by rw [hik2]⟩
    · rw [if_neg h]
      have hk2 : ¬ k ≤ i := by simpa [sendFails] using h
      refine ih (i + 1) _ (by omega) ?_
      rw [List.length_cons] at hlen
      omega

/-- C4. If the writer thread has already died with a device-write error
while the stream still has chunks, the producer's next send fails: the
producer reads no chunk past index `k`, joins the writer, and the pipeline
result is the writer's actual I/O error under the "Writer thread failed"
context — never the generic channel-closed error. -/
theorem producer_surfaces_writer_error (totalSize t0 : Nat)
    (chunks : List (Nat × Nat)) (k : Nat) (msg : String) (hk : k < chunks.length) :
    (producerRun totalSize t0 chunks (some k) (.ioErr msg)).1
        = .writerFailed ("Writer thread failed: " ++ msg)
    ∧ (producerRun totalSize t0 chunks (some k) (.ioErr msg)).2.1 = k + 1
    ∧ (producerRun totalSize t0 chunks (some k) (.ioErr msg)).1
        ≠ .channelClosed := by
  obtain ⟨h1, h2⟩ := producerLoop_send_failure totalSize t0 k (.ioErr msg) chunks 0
    { bytesProcessed := 0, lastUpdate := t0, emissions := [] }
    (Nat.zero_le k) (by simpa using hk)
  refine ⟨h1, h2, ?_⟩
  have h3 : (producerRun totalSize t0 chunks (some k) (.ioErr msg)).1
      = FlashResult.writerFailed ("Writer thread failed: " ++ msg) := h1
  rw [h3]
  intro hc
  cases hc

/-- Witness for `producer_surfaces_writer_error`: a three-chunk stream
whose writer died before the send of chunk 1. -/
theorem producer_surfaces_writer_error_witness :
    (producerRun 100 0 [(5, 0), (7, 150), (9, 300)] (some 1) (.ioErr "boom")).1
        = .writerFailed ("Writer thread failed: " ++ "boom")
    ∧ (producerRun 100 0 [(5, 0), (7, 150), (9, 300)] (some 1)
        (.ioErr "boom")).2.1 = 1 + 1 :=
  ⟨(producer_surfaces_writer_error 100 0 [(5, 0), (7, 150), (9, 300)] 1 "boom"
      (by decide)).1,
   (producer_surfaces_writer_error 100 0 [(5, 0), (7, 150), (9, 300)] 1 "boom"
      (by decide)).2.1⟩

/-- The throttled emission step keeps the emitted `bytes_written` values
sorted and bounded by the running byte count. -/
theorem emitStep_inv (totalSize t0 : Nat) (st : ProducerState) (now : Nat)
    (hmono : st.emissions.Pairwise
      (fun x y => x.bytes_written ≤ y.bytes_written))
    (hub : ∀ e ∈ st.emissions, e.bytes_written ≤ st.bytesProcessed) :
    (emitStep totalSize t0 st now).emissions.Pairwise
      (fun x y => x.bytes_written ≤ y.bytes_written)
    ∧ (∀ e ∈ (emitStep totalSize t0 st now).emissions,
        e.bytes_written ≤ (emitStep totalSize t0 st now).bytesProcessed) := by
  unfold emitStep
  by_cases h : 100 < now - st.lastUpdate
  · rw [if_pos h]
    constructor
    · refine List.pairwise_append.mpr ⟨hmono, List.pairwise_singleton _ _, ?_⟩
      intro x hx y hy
      rw [List.mem_singleton.mp hy]
      exact hub x hx
    · intro e he
      rcases List.mem_append.mp he with h1 | h1
      · exact hub e h1
      · rw [List.mem_singleton.mp h1]
  · rw [if_neg h]
    exact ⟨hmono, hub⟩

/-- Along the producer loop the emitted `bytes_written` values stay sorted:
the cumulative count only grows and each emission records the current
count. -/
theorem producerLoop_emissions_mono (totalSize t0 : Nat) (sf : Option Nat)
    (w : WriterOutcome) (chunks : List (Nat × Nat)) (i : Nat) (st : ProducerState)
    (hmono : st.emissions.Pairwise
      (fun x y => x.bytes_written ≤ y.bytes_written))
    (hub : ∀ e ∈ st.emissions, e.bytes_written ≤ st.bytesProcessed) :
    (producerLoop totalSize t0 sf w chunks i st).2.2.emissions.Pairwise
      (fun x y => x.bytes_written ≤ y.bytes_written) := by
  induction chunks generalizing i st with
  | nil => exact hmono
  | cons c cs ih =>
    rcases c with ⟨len, t⟩
    unfold producerLoop
    by_cases h : sendFails sf i = true
    · rw [if_pos h]
      exact hmono
    · rw [if_neg h]
      have hub2 : ∀ e ∈ st.emissions,
          e.bytes_written ≤ st.bytesProcessed + len :=
        fun e he => Nat.le_trans (hub e he) (Nat.le_add_right _ _)
      obtain ⟨m1, m2⟩ := emitStep_inv totalSize t0
        { bytesProcessed := st.bytesProcessed + len,
          lastUpdate := st.lastUpdate, emissions := st.emissions } t hmono hub2
      exact ih (i + 1) _ m1 m2

/-- C6 (amended). Across any transfer — whatever the chunk sizes, arrival
times and writer fate — the emitted `TransferProgress.bytes_written`
values are monotonically non-decreasing in emission order (reports may be
skipped by the 100 ms throttle but never duplicated out of order). There
is, however, no forced final emission, so the last emitted report is only
the most recent chunk that passed the throttle and its `percent` can lie
far below 100 even when `total_bytes` is accurate
(see `final_progress_below_100`). -/
theorem progress_monotone (totalSize t0 : Nat) (chunks : List (Nat × Nat))
    (sf : Option Nat) (w : WriterOutcome) :
    (producerRun totalSize t0 chunks sf w).2.2.emissions.Pairwise
      (fun x y => x.bytes_written ≤ y.bytes_written) :=
  producerLoop_emissions_mono totalSize t0 sf w chunks 0
    { bytesProcessed := 0, lastUpdate := t0, emissions := [] }
    (List.Pairwise.nil) (fun e he => absurd he (List.not_mem_nil e))

/-- C6 (counterexample). A two-chunk transfer of 2 bytes with accurate
`total_bytes = 2`: the first chunk (at 200 ms) passes the throttle and is
emitted at 50 percent; the second and final chunk (at 250 ms, only 50 ms
later) is throttled, and the stream ends with no further emission. The
final emitted report therefore has `percent = 50`, not within any
floating-point tolerance of 100. -/
theorem final_progress_below_100 :
    ((producerRun 2 0 [(1, 200), (1, 250)] none .ok).2.2.emissions.map
        (fun e => (e.bytes_written, e.percent))) = [(1, 50)]
    ∧ ((50 : ℚ) ≠ 100) := by
  constructor
  · norm_num [producerRun, producerLoop, emitStep, sendFails]
  · norm_num

/-- C8. When the flash succeeds and the subsequent eject fails, the task
ends in a `Success` state whose message notes the eject failure, and no
state it pushes is ever an `Error`: the eject failure is an annotated
success, never escalated to the severity of a failed flash. -/
theorem eject_failure_annotated_success (mac : Bool) (path isoName url e : String) :
    (flashTask mac path isoName url .ok .ok (.err e)).1.getLast?
        = some (.Success ("Flash complete, but eject failed: " ++ e))
    ∧ ((flashTask mac path isoName url .ok .ok (.err e)).1.all
        fun s => !s.isErrorState) = true :=
  ⟨rfl, rfl⟩

/-- C9. The hand-off queue is bounded at `CHANNEL_BOUND = 4` chunks:
every occupancy reachable from the empty queue stays at most 4, a send
issued while 4 chunks sit undrained blocks instead of completing, and with
a consumer that never drains the first 4 sends complete while the 5th
blocks. -/
theorem channel_bound_backpressure :
    (∀ n, ChanReachable n → n ≤ CHANNEL_BOUND)
    ∧ chanStep CHANNEL_BOUND .send = none
    ∧ runChanOps 0 (List.replicate 4 .send) = some 4
    ∧ runChanOps 0 (List.replicate 5 .send) = none := by
  refine ⟨?_, by decide, by decide, by decide⟩
  intro n h
  have hcb : CHANNEL_BOUND = 4 := rfl
  induction h with
  | init => omega
  | step n m op hr hstep ih =>
    rcases op with _ | _
    · unfold chanStep at hstep
      by_cases hc : n < CHANNEL_BOUND
      · rw [if_pos hc] at hstep
        cases hstep
        omega
      · rw [if_neg hc] at hstep
        cases hstep
    · unfold chanStep at hstep
      by_cases hc : 0 < n
      · rw [if_pos hc] at hstep
        cases hstep
        omega
      · rw [if_neg hc] at hstep
        cases hstep

/-- Witness for `channel_bound_backpressure`: the occupancy 4 reached by
four completed sends is within the bound. -/
theorem channel_bound_backpressure_witness : (4 : Nat) ≤ CHANNEL_BOUND :=
  channel_bound_backpressure.1 4
    (.step 3 4 .send
      (.step 2 3 .send
        (.step 1 2 .send
          (.step 0 1 .send .init (by decide))
          (by decide))
        (by decide))
      (by decide))

/-- C10. If the unmount that starts the flash background task fails, the
task pushes exactly the in-progress and error states and makes no further
call: `flasher.flash` — whose body performs the pre-flight HTTP request,
the device open and every write — is never invoked, whatever the would-be
flash and eject results. -/
theorem unmount_failure_aborts_flash (mac : Bool) (path isoName url e : String)
    (flashRes ejectRes : OpResult) :
    flashTask mac path isoName url (.err e) flashRes ejectRes
      = ([.InProgress ("Unmounting " ++ path ++ "..."),
          .Error ("Failed to unmount: " ++ e)],
         [.unmountCall path])
    ∧ ((flashTask mac path isoName url (.err e) flashRes ejectRes).2.all
        fun act => ! act.isFlashCall) = true :=
  ⟨rfl, rfl⟩
